import Mathlib

/-!
Shallow embedding of the multi-timeline spreadsheet backend
(`Code.gs`: `getSheet`, `makeAbbreviation`, `computeNumericYear`,
`getEventsGrouped`, `addEvent`, `updateEvent`, `deleteEvent`,
`getTimelineNames`).

The spreadsheet is modelled as a list of rows of cells; a cell is either a
text value or an integer value.  An empty cell reads as the empty string, as
in the Apps Script `getValues` API.  JavaScript numbers appearing in this
program are integers (years and derived numeric years), so integer cells are
modelled by `Int`.
-/

namespace TimelineApp

/-- A spreadsheet cell value: text or integer.  A blank cell is `Cell.s ""`. -/
inductive Cell where
  | s (v : String)
  | i (v : Int)
deriving DecidableEq

/-- JavaScript truthiness of a cell value: the empty string and 0 are falsy. -/
def Cell.truthy : Cell → Bool
  | .s v => v ≠ ""
  | .i n => n ≠ 0

/-- Decimal digits of a natural number, via explicit fuel so that the kernel
can evaluate it (`fuel > n` suffices; we always pass `n + 1`). -/
def natDigitsAux : Nat → Nat → List Char
  | 0, _ => []
  | f + 1, n =>
    let d := Char.ofNat (n % 10 + 48)
    if n < 10 then [d] else natDigitsAux f (n / 10) ++ [d]

/-- Decimal string of a natural number (`String(n)` in JavaScript). -/
def natStr (n : Nat) : String := ⟨natDigitsAux (n + 1) n⟩

/-- `String(n)` for a JavaScript integer. -/
def intStr (n : Int) : String :=
  if n < 0 then "-" ++ natStr n.natAbs else natStr n.natAbs

/-- JavaScript `String(v)` coercion of a cell value. -/
def jsStr : Cell → String
  | .s v => v
  | .i n => intStr n

/-- The characters JavaScript treats as whitespace (for `trim` and the
regular expression class `\s`). -/
def isJsSpace (c : Char) : Bool :=
  c == ' ' || c == '\t' || c == '\n' || c == '\r' ||
  c.toNat == 0xb || c.toNat == 0xc || c.toNat == 0xa0 || c.toNat == 0x1680 ||
  (0x2000 ≤ c.toNat && c.toNat ≤ 0x200a) ||
  c.toNat == 0x2028 || c.toNat == 0x2029 || c.toNat == 0x202f ||
  c.toNat == 0x205f || c.toNat == 0x3000 || c.toNat == 0xfeff

/-- JavaScript `String.prototype.trim` on a character list. -/
def jsTrimChars (l : List Char) : List Char :=
  ((l.dropWhile isJsSpace).reverse.dropWhile isJsSpace).reverse

/-- JavaScript `String.prototype.trim`. -/
def jsTrim (s : String) : String := ⟨jsTrimChars s.data⟩

/-- Numeric value of a list of decimal digit characters. -/
def digitsVal (l : List Char) : Nat :=
  l.foldl (fun acc c => acc * 10 + (c.toNat - 48)) 0

/-- JavaScript `parseInt(s, 10)`: skip leading whitespace, read an optional
sign, then the longest prefix of decimal digits; no digits means `NaN`,
modelled as `none`. -/
def parseIntJS (s : String) : Option Int :=
  let l := s.data.dropWhile isJsSpace
  let (neg, rest) :=
    match l with
    | '+' :: r => (false, r)
    | '-' :: r => (true, r)
    | r => (false, r)
  let digits := rest.takeWhile Char.isDigit
  if digits.isEmpty then none
  else some (if neg then -(digitsVal digits : Int) else (digitsVal digits : Int))

/-- JavaScript `Number(v)` coercion of a cell, where it is an integer.
Blank / whitespace-only text coerces to 0; decimal integer text (optionally
signed) to its value; integer cells to themselves.  Text that JavaScript
coerces to a non-integer number or to `NaN` yields `none`. -/
def jsNumberInt : Cell → Option Int
  | .i n => some n
  | .s v =>
    let l := jsTrimChars v.data
    if l.isEmpty then some 0
    else
      let (neg, rest) :=
        match l with
        | '+' :: r => (false, r)
        | '-' :: r => (true, r)
        | r => (false, r)
      if !rest.isEmpty && rest.all Char.isDigit then
        some (if neg then -(digitsVal rest : Int) else (digitsVal rest : Int))
      else none

/-- JavaScript `a || b` on cell values. -/
def jsOrC (a b : Cell) : Cell := if a.truthy then a else b

/-- JavaScript `a || b` where `a` may be `undefined` (modelled by `none`). -/
def jsOrO (a : Option Cell) (b : Cell) : Cell :=
  match a with
  | some c => jsOrC c b
  | none => b

/-- `s.split(/\s+/)` on a character list: splits on maximal runs of
whitespace.  As in JavaScript, a leading (trailing) separator run produces a
leading (trailing) empty token, and the empty input produces one empty
token.  Fuel-driven so the kernel can evaluate it (`fuel > length`
suffices; callers pass `length + 1`). -/
def splitRunsAux : Nat → List Char → List Char → List (List Char)
  | 0, _, acc => [acc.reverse]
  | _ + 1, [], acc => [acc.reverse]
  | f + 1, c :: rest, acc =>
    if isJsSpace c then acc.reverse :: splitRunsAux f (rest.dropWhile isJsSpace) []
    else splitRunsAux f rest (c :: acc)

/-- `s.split(/\s+/)` as a list of tokens. -/
def splitRuns (l : List Char) : List (List Char) :=
  splitRunsAux (l.length + 1) l []

/-- `w[0] ? w[0].toUpperCase() : ""` for one token, as characters.
`Char.toUpper` uppercases ASCII letters, which covers the event names this
program handles. -/
def tokenInitial : List Char → List Char
  | [] => []
  | c :: _ => [c.toUpper]

/-- `makeAbbreviation` body on an actual string:
`name.toString().trim().split(/\s+/).map(w => w[0] ? w[0].toUpperCase() : "").join("")`. -/
def makeAbbrevStr (s : String) : String :=
  ⟨((splitRuns (jsTrimChars s.data)).map tokenInitial).flatten⟩

/-- `makeAbbreviation(name)`: a falsy name yields `""`, otherwise the
initials of its whitespace-separated tokens, uppercased. -/
def makeAbbreviation (name : Cell) : String :=
  if name.truthy then makeAbbrevStr (jsStr name) else ""

/-- `computeNumericYear(year, era)`: parse the year as an integer
(`parseInt(year, 10)` after string coercion); `NaN` yields 0; otherwise
negate the absolute value when `era === "BC"`, else take the absolute
value. -/
def computeNumericYear (year era : Cell) : Int :=
  match parseIntJS (jsStr year) with
  | none => 0
  | some y => if era = Cell.s "BC" then -(y.natAbs : Int) else (y.natAbs : Int)

/-! ### The sheet model

A sheet is an ordered list of rows; row 0 is the header row.  `getCell`
reads a cell, yielding a blank (`Cell.s ""`) outside the stored region,
matching `getRange(...).getValues()` which pads reads beyond the content
with empty strings.  `lastRow`/`lastCol` are the extent of the content, as
`getLastRow()`/`getLastColumn()` report it. -/

structure Sheet where
  rows : List (List Cell)
deriving DecidableEq

def Sheet.lastRow (s : Sheet) : Nat := s.rows.length

def Sheet.lastCol (s : Sheet) : Nat :=
  s.rows.foldr (fun r m => max r.length m) 0

/-- Read a cell (0-based row and column). -/
def Sheet.getCell (s : Sheet) (r c : Nat) : Cell :=
  (s.rows.getD r []).getD c (Cell.s "")

/-- Pad a row with blanks to at least `n` cells. -/
def padRow (row : List Cell) (n : Nat) : List Cell :=
  row ++ List.replicate (n - row.length) (Cell.s "")

/-- Overwrite the cells of `row` at positions `start ..< start + vals.length`
with `vals`, extending the row with blanks if needed. -/
def setRowCells (row : List Cell) (start : Nat) (vals : List Cell) : List Cell :=
  let p := padRow row (start + vals.length)
  p.take start ++ vals ++ p.drop (start + vals.length)

/-- `getRange(r+1, start+1, 1, vals.length).setValues([vals])`: write one
row's cells, creating the row if the sheet is shorter. -/
def Sheet.writeCells (s : Sheet) (r start : Nat) (vals : List Cell) : Sheet :=
  let rows :=
    if s.rows.length ≤ r then s.rows ++ List.replicate (r + 1 - s.rows.length) []
    else s.rows
  ⟨rows.set r (setRowCells (rows.getD r []) start vals)⟩

/-- Helper: rewrite each row with its index. -/
def mapIdxRows (f : Nat → List Cell → List Cell) : Nat → List (List Cell) → List (List Cell)
  | _, [] => []
  | j, r :: rs => f j r :: mapIdxRows f (j + 1) rs

/-- `getRange(startRow+1, col+1, count, 1).setValue(v)`: set column `col` of
rows `startRow ..< startRow + count` to `v`. -/
def Sheet.setColCells (s : Sheet) (startRow count col : Nat) (v : Cell) : Sheet :=
  ⟨mapIdxRows
    (fun j row =>
      if startRow ≤ j ∧ j < startRow + count then setRowCells row col [v] else row)
    0 s.rows⟩

/-- `insertColumnBefore(1)`: every row gains a new blank first cell. -/
def Sheet.insertColBefore (s : Sheet) : Sheet :=
  ⟨s.rows.map (fun r => Cell.s "" :: r)⟩

/-- `deleteRow(r+1)` (0-based `r`). -/
def Sheet.deleteRowAt (s : Sheet) (r : Nat) : Sheet :=
  ⟨s.rows.eraseIdx r⟩

def REQUIRED_HEADERS : List String :=
  ["TimelineName", "EventName", "Year", "Era", "NumericYear", "Abbreviation",
   "Description"]

def OLD_HEADERS : List String :=
  ["EventName", "Year", "Era", "NumericYear", "Abbreviation", "Description"]

def requiredCells : List Cell := REQUIRED_HEADERS.map Cell.s

/-- `normalized` in `getSheet`: `(h || "").toString().trim()`. -/
def normalizeHeader (c : Cell) : String :=
  if c.truthy then jsTrim (jsStr c) else ""

/-- The state effect of `getSheet()`: ensure the header row, migrating the
legacy 6-column layout (insert a first column, write the 7 required
headers, backfill the new first cell of every data row with
"Timeline 1"), or rewriting a mismatched header row in place. -/
def getSheetRun (s : Sheet) : Sheet :=
  if s.lastRow = 0 then s.writeCells 0 0 requiredCells
  else
    let h := (List.range REQUIRED_HEADERS.length).map
      (fun i => normalizeHeader (s.getCell 0 i))
    let isOld := h.take 6 = OLD_HEADERS
    if isOld then
      let s1 := s.insertColBefore
      let s2 := s1.writeCells 0 0 requiredCells
      let dataRows := s2.lastRow - 1
      if 0 < dataRows then s2.setColCells 1 dataRows 0 (Cell.s "Timeline 1") else s2
    else
      let needRewrite :=
        (List.zip REQUIRED_HEADERS h).any (fun p => p.1 ≠ p.2) ∨
        s.lastCol < REQUIRED_HEADERS.length
      if needRewrite then s.writeCells 0 0 requiredCells else s

/-! ### Record decoding and the grouped query -/

/-- Cell `i` of a data row as `getValues` returns it (blank outside the
stored cells). -/
def dget (row : List Cell) (i : Nat) : Cell := row.getD i (Cell.s "")

structure Event where
  name : Cell
  year : Cell
  era : Cell
  numericYear : Cell
  abbreviation : Cell
  description : Cell
  timelineName : String
deriving DecidableEq

/-- Decoding of one data row inside `getEventsGrouped`. -/
def decodeRow (row : List Cell) : Event :=
  let timelineName := jsStr (jsOrC (dget row 0) (Cell.s "Untitled"))
  let name := jsOrC (dget row 1) (Cell.s "")
  let year := dget row 2
  let era := jsOrC (dget row 3) (Cell.s "")
  let numericYear :=
    if dget row 4 = Cell.s "" then Cell.i (computeNumericYear year era)
    else dget row 4
  let abbreviation := jsOrC (dget row 5) (Cell.s (makeAbbreviation name))
  let description := jsOrC (dget row 6) (Cell.s "")
  ⟨name, year, era, numericYear, abbreviation, description, timelineName⟩

/-- The comparator operand `e.numericYear || 0`. -/
def sortVal (e : Event) : Cell := jsOrC e.numericYear (Cell.i 0)

/-- Sorting key used by the chronological sort: the numeric coercion of
`e.numericYear || 0`.  When that coercion is `NaN` the JavaScript
comparator is inconsistent and the sort order is implementation-defined;
the `getD 0` below is a modelling default for that case, and every theorem
about the sort carries the hypothesis that it is not exercised. -/
def evKey (e : Event) : Int := (jsNumberInt (sortVal e)).getD 0

/-- The data rows of a sheet, each read 7 cells wide
(`getRange(2, 1, lastRow - 1, 7).getValues()`). -/
def dataRowsOf (s : Sheet) : List (List Cell) :=
  (List.range (s.lastRow - 1)).map
    (fun r => (List.range REQUIRED_HEADERS.length).map (fun c => s.getCell (r + 1) c))

/-- First-occurrence list of timeline names (the keys of the grouping
object, before sorting). -/
def groupNames (evs : List Event) : List String :=
  evs.foldl (fun acc e => if e.timelineName ∈ acc then acc else acc ++ [e.timelineName]) []

structure Timeline where
  name : String
  events : List Event
deriving DecidableEq

structure Grouped where
  timelines : List Timeline
  timelineNames : List String
deriving DecidableEq

/-- `getEventsGrouped()`.  The two JavaScript sorts are stable (ES2019);
`List.mergeSort` is the stable sort, so it models them exactly whenever
the comparator is consistent (group keys always; event keys whenever no
`NaN` arises, see `evKey`). -/
def getEventsGrouped (s : Sheet) : Grouped × Sheet :=
  let sheet := getSheetRun s
  if sheet.lastRow < 2 then (⟨[], []⟩, sheet)
  else
    let evs := (dataRowsOf sheet).map decodeRow
    let sortedNames := (groupNames evs).mergeSort (fun a b => a ≤ b)
    let timelines := sortedNames.map
      (fun n =>
        ⟨n, (evs.filter (fun e => e.timelineName = n)).mergeSort
              (fun a b => evKey a ≤ evKey b)⟩)
    (⟨timelines, timelines.map (fun t => t.name)⟩, sheet)

/-- `getTimelineNames()`. -/
def getTimelineNames (s : Sheet) : List String × Sheet :=
  let (g, sheet) := getEventsGrouped s
  (g.timelineNames, sheet)

/-! ### Mutations -/

structure Result where
  success : Bool
  message : String
deriving DecidableEq

/-- The composite key (timelineName, name, year, era): `event.original` in
`updateEvent` and `params` in `deleteEvent`. -/
structure Key where
  timelineName : Cell
  name : Cell
  year : Cell
  era : Cell
deriving DecidableEq

/-- String-coerced composite-key match of a data row:
`String(row[0]) === String(k.timelineName) && ...`. -/
def rowMatches (k : Key) (row : List Cell) : Bool :=
  jsStr (dget row 0) = jsStr k.timelineName ∧
  jsStr (dget row 1) = jsStr k.name ∧
  jsStr (dget row 2) = jsStr k.year ∧
  jsStr (dget row 3) = jsStr k.era

/-- `addEvent` input: fields may be `undefined` (`none`). -/
structure EventInput where
  timelineName : Option Cell := none
  name : Option Cell := none
  year : Option Cell := none
  era : Option Cell := none
  description : Option Cell := none
deriving DecidableEq

/-- `addEvent(eventData)` (the body; the surrounding try/catch only matters
for store failures, which the pure sheet model cannot produce). -/
def addEvent (eventData : Option EventInput) (s : Sheet) : Result × Sheet :=
  match eventData with
  | none => (⟨false, "No event data."⟩, s)
  | some e =>
    let timelineName := jsStr (jsOrO e.timelineName (Cell.s "Timeline 1"))
    let name := jsTrim (jsStr (jsOrO e.name (Cell.s "")))
    let era := jsStr (jsOrO e.era (Cell.s "CE"))
    let description := jsStr (jsOrO e.description (Cell.s ""))
    if name = "" then (⟨false, "Missing event name."⟩, s)
    else
      match parseIntJS (jsStr (e.year.getD (Cell.s ""))) with
      | none => (⟨false, "Year must be a number."⟩, s)
      | some yearNum =>
        let numericYear := computeNumericYear (Cell.i yearNum) (Cell.s era)
        let abbreviation := makeAbbreviation (Cell.s name)
        let sheet := getSheetRun s
        (⟨true, "Event '" ++ name ++ "' added to '" ++ timelineName ++ "'."⟩,
         ⟨sheet.rows ++ [[Cell.s timelineName, Cell.s name, Cell.i yearNum,
                          Cell.s era, Cell.i numericYear, Cell.s abbreviation,
                          Cell.s description]]⟩)

/-- `updateEvent` input: the original key plus optional new values. -/
structure UpdateInput where
  original : Option Key := none
  timelineName : Option Cell := none
  name : Option Cell := none
  year : Option Cell := none
  era : Option Cell := none
  description : Option Cell := none
deriving DecidableEq

/-- `updateEvent(event)` (body; see `addEvent` about try/catch). -/
def updateEvent (event : Option UpdateInput) (s : Sheet) : Result × Sheet :=
  match event with
  | none => (⟨false, "Missing original identifiers."⟩, s)
  | some e =>
    match e.original with
    | none => (⟨false, "Missing original identifiers."⟩, s)
    | some o =>
      let sheet := getSheetRun s
      if sheet.lastRow < 2 then (⟨false, "No events to update."⟩, sheet)
      else
        let data := dataRowsOf sheet
        match data.findIdx? (rowMatches o) with
        | none => (⟨false, "Event not found for update."⟩, sheet)
        | some m =>
          let mrow := data.getD m []
          let newTimeline := jsOrO e.timelineName (jsOrC (dget mrow 0) (Cell.s "Timeline 1"))
          let newName := jsStr (jsOrO e.name (jsOrC (dget mrow 1) (Cell.s "")))
          match parseIntJS (jsStr (e.year.getD (dget mrow 2))) with
          | none => (⟨false, "Year must be a number."⟩, sheet)
          | some newYearNum =>
            let newEra := jsStr (jsOrO e.era (jsOrC (dget mrow 3) (Cell.s "CE")))
            let newNumeric := computeNumericYear (Cell.i newYearNum) (Cell.s newEra)
            let newAbbrev := makeAbbreviation (Cell.s newName)
            let newDesc := jsStr (e.description.getD (dget mrow 6))
            let sheet2 := sheet.writeCells (m + 1) 0
              [newTimeline, Cell.s newName, Cell.i newYearNum, Cell.s newEra,
               Cell.i newNumeric, Cell.s newAbbrev, Cell.s newDesc]
            (⟨true, "Event updated successfully."⟩, sheet2)

/-- `deleteEvent(params)` (body; see `addEvent` about try/catch). -/
def deleteEvent (params : Option Key) (s : Sheet) : Result × Sheet :=
  match params with
  | none => (⟨false, "No delete parameters."⟩, s)
  | some k =>
    let sheet := getSheetRun s
    if sheet.lastRow < 2 then (⟨false, "No events to delete."⟩, sheet)
    else
      let data := dataRowsOf sheet
      match data.findIdx? (rowMatches k) with
      | none => (⟨false, "Event not found."⟩, sheet)
      | some i => (⟨true, "Event deleted."⟩, sheet.deleteRowAt (i + 1))

/-! ### Exception-aware embedding over an abstract row store

The pure `Sheet` model cannot fail, so the try/catch blocks of the three
mutation entry points are invisible in it.  To settle the error-handling
claim the same functions are embedded once more, over an abstract row
store whose every primitive may throw (`Except.error` carrying the
JavaScript error's `message`).  The structure of each function below
mirrors the source exactly; only the store primitives are abstract. -/

/-- State-threading computation over an abstract store that may throw. -/
def StoreM (σ : Type) (α : Type) := σ → Except String (α × σ)

instance : Monad (StoreM σ) where
  pure a := fun s => .ok (a, s)
  bind x f := fun s =>
    match x s with
    | .ok (a, s1) => f a s1
    | .error e => .error e

/-- The row-store primitives consumed by the backend. -/
structure StoreOps (σ : Type) where
  getLastRow : StoreM σ Nat
  getLastCol : StoreM σ Nat
  readCell : Nat → Nat → StoreM σ Cell
  writeRow : Nat → Nat → List Cell → StoreM σ Unit
  setColumn : Nat → Nat → Nat → Cell → StoreM σ Unit
  insertColBefore : StoreM σ Unit
  appendRow : List Cell → StoreM σ Unit
  deleteRow : Nat → StoreM σ Unit

/-- `getSheet()` over the abstract store. -/
def getSheetX (ops : StoreOps σ) : StoreM σ Unit := do
  let lastRow ← ops.getLastRow
  let lastCol ← ops.getLastCol
  if lastRow = 0 then ops.writeRow 0 0 requiredCells
  else
    let hs ← (List.range (max lastCol REQUIRED_HEADERS.length)).mapM
      (fun i => ops.readCell 0 i)
    let h := (hs.take REQUIRED_HEADERS.length).map normalizeHeader
    if h.take 6 = OLD_HEADERS then do
      ops.insertColBefore
      ops.writeRow 0 0 requiredCells
      let lr ← ops.getLastRow
      if 0 < lr - 1 then ops.setColumn 1 (lr - 1) 0 (Cell.s "Timeline 1")
      else pure ()
    else
      let lc ← ops.getLastCol
      if (REQUIRED_HEADERS.zip h).any (fun p => p.1 != p.2) ∨ lc < REQUIRED_HEADERS.length then
        ops.writeRow 0 0 requiredCells
      else pure ()

/-- `getRange(2, 1, lastRow - 1, 7).getValues()` over the abstract store. -/
def readDataX (ops : StoreOps σ) : StoreM σ (List (List Cell)) := do
  let lastRow ← ops.getLastRow
  (List.range (lastRow - 1)).mapM
    (fun r => (List.range REQUIRED_HEADERS.length).mapM (fun c => ops.readCell (r + 1) c))

/-- `getEventsGrouped()` over the abstract store.  It has no try/catch: a
store failure propagates. -/
def getEventsGroupedX (ops : StoreOps σ) : StoreM σ Grouped := do
  getSheetX ops
  let lastRow ← ops.getLastRow
  if lastRow < 2 then pure ⟨[], []⟩
  else
    let data ← readDataX ops
    let evs := data.map decodeRow
    let sortedNames := (groupNames evs).mergeSort (fun a b => a ≤ b)
    let timelines := sortedNames.map
      (fun n =>
        ⟨n, (evs.filter (fun e => e.timelineName = n)).mergeSort
              (fun a b => evKey a ≤ evKey b)⟩)
    pure ⟨timelines, timelines.map (fun t => t.name)⟩

/-- `getTimelineNames()` over the abstract store; also without try/catch. -/
def getTimelineNamesX (ops : StoreOps σ) : StoreM σ (List String) := do
  let g ← getEventsGroupedX ops
  pure g.timelineNames

/-- The `catch` block shared by the mutation entry points: any thrown
store error becomes `{success:false, message: msgPre + e.message}`. -/
def catching (msgPre : String) (body : StoreM σ Result) : StoreM σ Result :=
  fun s =>
    match body s with
    | .ok r => .ok r
    | .error e => .ok (⟨false, msgPre ++ e⟩, s)

/-- The `try` body of `addEvent`. -/
def addEventBodyX (ops : StoreOps σ) (eventData : Option EventInput) :
    StoreM σ Result := do
  match eventData with
  | none => pure ⟨false, "No event data."⟩
  | some e =>
    let timelineName := jsStr (jsOrO e.timelineName (Cell.s "Timeline 1"))
    let name := jsTrim (jsStr (jsOrO e.name (Cell.s "")))
    let era := jsStr (jsOrO e.era (Cell.s "CE"))
    let description := jsStr (jsOrO e.description (Cell.s ""))
    if name = "" then pure ⟨false, "Missing event name."⟩
    else
      match parseIntJS (jsStr (e.year.getD (Cell.s ""))) with
      | none => pure ⟨false, "Year must be a number."⟩
      | some yearNum =>
        let numericYear := computeNumericYear (Cell.i yearNum) (Cell.s era)
        let abbreviation := makeAbbreviation (Cell.s name)
        getSheetX ops
        ops.appendRow [Cell.s timelineName, Cell.s name, Cell.i yearNum,
                       Cell.s era, Cell.i numericYear, Cell.s abbreviation,
                       Cell.s description]
        pure ⟨true, "Event '" ++ name ++ "' added to '" ++ timelineName ++ "'."⟩

/-- `addEvent(eventData)` over the abstract store. -/
def addEventX (ops : StoreOps σ) (eventData : Option EventInput) :
    StoreM σ Result :=
  catching "Error adding event: " (addEventBodyX ops eventData)

/-- The `try` body of `updateEvent`. -/
def updateEventBodyX (ops : StoreOps σ) (event : Option UpdateInput) :
    StoreM σ Result := do
  match event with
  | none => pure ⟨false, "Missing original identifiers."⟩
  | some e =>
    match e.original with
    | none => pure ⟨false, "Missing original identifiers."⟩
    | some o =>
      getSheetX ops
      let lastRow ← ops.getLastRow
      if lastRow < 2 then pure ⟨false, "No events to update."⟩
      else
        let data ← readDataX ops
        match data.findIdx? (rowMatches o) with
        | none => pure ⟨false, "Event not found for update."⟩
        | some m =>
          let mrow := data.getD m []
          let newTimeline := jsOrO e.timelineName (jsOrC (dget mrow 0) (Cell.s "Timeline 1"))
          let newName := jsStr (jsOrO e.name (jsOrC (dget mrow 1) (Cell.s "")))
          match parseIntJS (jsStr (e.year.getD (dget mrow 2))) with
          | none => pure ⟨false, "Year must be a number."⟩
          | some newYearNum =>
            let newEra := jsStr (jsOrO e.era (jsOrC (dget mrow 3) (Cell.s "CE")))
            let newNumeric := computeNumericYear (Cell.i newYearNum) (Cell.s newEra)
            let newAbbrev := makeAbbreviation (Cell.s newName)
            let newDesc := jsStr (e.description.getD (dget mrow 6))
            ops.writeRow (m + 1) 0
              [newTimeline, Cell.s newName, Cell.i newYearNum, Cell.s newEra,
               Cell.i newNumeric, Cell.s newAbbrev, Cell.s newDesc]
            pure ⟨true, "Event updated successfully."⟩

/-- `updateEvent(event)` over the abstract store. -/
def updateEventX (ops : StoreOps σ) (event : Option UpdateInput) :
    StoreM σ Result :=
  catching "Error updating event: " (updateEventBodyX ops event)

/-- The `try` body of `deleteEvent`. -/
def deleteEventBodyX (ops : StoreOps σ) (params : Option Key) :
    StoreM σ Result := do
  match params with
  | none => pure ⟨false, "No delete parameters."⟩
  | some k =>
    getSheetX ops
    let lastRow ← ops.getLastRow
    if lastRow < 2 then pure ⟨false, "No events to delete."⟩
    else
      let data ← readDataX ops
      match data.findIdx? (rowMatches k) with
      | none => pure ⟨false, "Event not found."⟩
      | some i =>
        ops.deleteRow (i + 1)
        pure ⟨true, "Event deleted."⟩

/-- `deleteEvent(params)` over the abstract store. -/
def deleteEventX (ops : StoreOps σ) (params : Option Key) : StoreM σ Result :=
  catching "Error deleting event: " (deleteEventBodyX ops params)

/-- A store whose every primitive throws with message `e`. -/
def failOps (e : String) : StoreOps σ where
  getLastRow := fun _ => .error e
  getLastCol := fun _ => .error e
  readCell := fun _ _ _ => .error e
  writeRow := fun _ _ _ _ => .error e
  setColumn := fun _ _ _ _ _ => .error e
  insertColBefore := fun _ => .error e
  appendRow := fun _ _ => .error e
  deleteRow := fun _ _ => .error e

/-- The abbreviation as the specification words it: split the trimmed name
on runs of whitespace, keep the non-empty tokens, take the first character
of each, uppercase it, and concatenate with no separator. -/
def specAbbrev (s : String) : String :=
  ⟨(((splitRuns (jsTrimChars s.data)).filter
      (fun t => !t.isEmpty)).map tokenInitial).flatten⟩

/-! ## Theorems -/

theorem flatten_tokenInitial_filter (ts : List (List Char)) :
    (ts.map tokenInitial).flatten =
      ((ts.filter (fun t => !t.isEmpty)).map tokenInitial).flatten := by
  induction ts with
  | nil => rfl
  | cons t ts ih =>
    cases t with
    | nil => simpa [tokenInitial] using ih
    | cons c cs => simp [tokenInitial, ih]

/-- C8: `makeAbbreviation` splits the trimmed name on runs of whitespace,
takes the first character of each non-empty token, uppercases it, and
concatenates with no separator; an empty name yields the empty string; and
in particular `makeAbbreviation("First Temple") = "FT"`,
`makeAbbreviation("") = ""`, and `makeAbbreviation("robert") = "R"`. -/
theorem makeAbbreviation_spec :
    (∀ s : String, makeAbbreviation (Cell.s s) = specAbbrev s) ∧
    makeAbbreviation (Cell.s "First Temple") = "FT" ∧
    makeAbbreviation (Cell.s "") = "" ∧
    makeAbbreviation (Cell.s "robert") = "R" := by
  refine ⟨fun s => ?_, by decide, by decide, by decide⟩
  by_cases h : s = ""
  · subst h; decide
  · have ht : (Cell.s s).truthy = true := by
      simp [Cell.truthy, h]
    simp only [makeAbbreviation, ht, if_pos, makeAbbrevStr, specAbbrev, jsStr]
    exact congrArg String.mk (flatten_tokenInitial_filter _)

/-- C2: the derived numeric year is the negated absolute value of the
parsed integer year when the era is exactly "BC", the absolute value of
the parsed integer year otherwise, and 0 when the year does not parse as
an integer. -/
theorem computeNumericYear_spec (year era : Cell) :
    (parseIntJS (jsStr year) = none → computeNumericYear year era = 0) ∧
    (∀ y : Int, parseIntJS (jsStr year) = some y →
      computeNumericYear year era =
        if era = Cell.s "BC" then -(y.natAbs : Int) else (y.natAbs : Int)) := by
  constructor
  · intro h; simp [computeNumericYear, h]
  · intro y h; simp [computeNumericYear, h]

theorem computeNumericYear_spec_witness :
    computeNumericYear (Cell.s " -7x") (Cell.s "BC") = -7 ∧
    computeNumericYear (Cell.s "abc") (Cell.s "CE") = 0 := by
  constructor
  · have h := (computeNumericYear_spec (Cell.s " -7x") (Cell.s "BC")).2 (-7) (by decide)
    simpa using h
  · exact (computeNumericYear_spec (Cell.s "abc") (Cell.s "CE")).1 (by decide)

/-- C4, counterexample to the claim as stated: decoding a row whose
timelineName cell is blank yields "Untitled", not the "Timeline 1"
placeholder. -/
theorem decodeRow_blank_timeline_cex :
    (decodeRow [Cell.s "", Cell.s "X", Cell.i 5, Cell.s "CE", Cell.i 5,
                Cell.s "X", Cell.s ""]).timelineName ≠ "Timeline 1" ∧
    (decodeRow [Cell.s "", Cell.s "X", Cell.i 5, Cell.s "CE", Cell.i 5,
                Cell.s "X", Cell.s ""]).timelineName = "Untitled" := by
  constructor <;> decide

/-- C4 (amended): for every row whose timelineName cell is blank (an empty
or null spreadsheet cell reads back as the empty string), decoding the row
inside `getEventsGrouped` yields an Event whose timelineName is the fixed
default "Untitled". -/
theorem decodeRow_blank_timeline (row : List Cell) (h : dget row 0 = Cell.s "") :
    (decodeRow row).timelineName = "Untitled" := by
  simp [decodeRow, h, jsOrC, Cell.truthy, jsStr]

theorem decodeRow_blank_timeline_witness :
    (decodeRow [Cell.s "", Cell.s "Y", Cell.i 1, Cell.s "CE", Cell.i 1,
                Cell.s "Y", Cell.s ""]).timelineName = "Untitled" :=
  decodeRow_blank_timeline _ (by decide)

/-! ### Schema manager -/

theorem length_le_foldr_max {r : List Cell} :
    ∀ {rs : List (List Cell)}, r ∈ rs →
      r.length ≤ rs.foldr (fun q m => max q.length m) 0 := by
  intro rs h
  induction rs with
  | nil => cases h
  | cons q rs ih =>
    rcases List.mem_cons.mp h with h1 | h2
    · subst h1; simp
    · exact le_trans (ih h2) (by simp)

theorem foldr_max_le {n : Nat} :
    ∀ {rs : List (List Cell)}, (∀ r ∈ rs, r.length ≤ n) →
      rs.foldr (fun q m => max q.length m) 0 ≤ n := by
  intro rs h
  induction rs with
  | nil => simp
  | cons q rs ih =>
    simp only [List.foldr_cons, max_le_iff]
    exact ⟨h q (by simp), ih (fun r hr => h r (List.mem_cons_of_mem _ hr))⟩

/-- A sheet whose header row is exactly the required one is left unchanged
by `getSheet`. -/
theorem getSheetRun_req_cons (ds : List (List Cell)) :
    getSheetRun ⟨requiredCells :: ds⟩ = ⟨requiredCells :: ds⟩ := by
  have hcol : ¬ (Sheet.mk (requiredCells :: ds)).lastCol < REQUIRED_HEADERS.length := by
    have h1 : requiredCells.length ≤ (Sheet.mk (requiredCells :: ds)).lastCol :=
      length_le_foldr_max (List.mem_cons_self _ _)
    have h2 : requiredCells.length = 7 := by decide
    simp only [REQUIRED_HEADERS, List.length_cons, List.length_nil]
    omega
  have hcell : ∀ i, (Sheet.mk (requiredCells :: ds)).getCell 0 i
      = requiredCells.getD i (Cell.s "") := fun i => rfl
  unfold getSheetRun
  rw [if_neg (by simp [Sheet.lastRow])]
  simp only [hcell]
  rw [if_neg (by decide), if_neg ?hnr]
  case hnr =>
    intro hor
    rcases hor with hz | hc
    · exact absurd hz (by decide)
    · exact hcol hc

/-- C7: on a table whose header row already equals the required 7-column
header, a (second) call to `ensureSchema` (`getSheet`) produces no change
at all: the header, every data row, the column count and the row count are
identical before and after. -/
theorem ensureSchema_idempotent (s : Sheet)
    (h : s.rows.head? = some requiredCells) : getSheetRun s = s := by
  cases s with
  | mk rows =>
    cases rows with
    | nil => simp at h
    | cons r ds =>
      simp only [List.head?_cons, Option.some.injEq] at h
      subst h
      exact getSheetRun_req_cons ds

theorem ensureSchema_idempotent_witness :
    getSheetRun ⟨[requiredCells,
      [Cell.s "T1", Cell.s "X", Cell.i 5, Cell.s "CE", Cell.i 5, Cell.s "X",
       Cell.s "d"]]⟩
    = ⟨[requiredCells,
      [Cell.s "T1", Cell.s "X", Cell.i 5, Cell.s "CE", Cell.i 5, Cell.s "X",
       Cell.s "d"]]⟩ :=
  ensureSchema_idempotent _ rfl

theorem setRowCells_cons (c v : Cell) (r : List Cell) :
    setRowCells (c :: r) 0 [v] = v :: r := by
  unfold setRowCells padRow
  have h : 1 - (c :: r).length = 0 := by simp
  simp [h]

theorem mapIdxRows_backfill (v : Cell) (n : Nat) :
    ∀ (rs : List (List Cell)) (j : Nat), 1 ≤ j → j + rs.length ≤ 1 + n →
      mapIdxRows
        (fun j row => if 1 ≤ j ∧ j < 1 + n then setRowCells row 0 [v] else row)
        j rs
      = rs.map (fun row => setRowCells row 0 [v]) := by
  intro rs
  induction rs with
  | nil => intro j h1 h2; rfl
  | cons r rs ih =>
    intro j h1 h2
    simp only [List.length_cons] at h2
    simp only [mapIdxRows, List.map_cons]
    rw [if_pos ⟨h1, by omega⟩, ih (j + 1) (by omega) (by omega)]

/-- `setValue` on the whole-column range `(2, 1, rows.length, 1)` rewrites
the first cell of every data row. -/
theorem setColCells_all (v : Cell) (hd : List Cell) (rows : List (List Cell)) :
    Sheet.setColCells ⟨hd :: rows⟩ 1 rows.length 0 v
      = ⟨hd :: rows.map (fun r => setRowCells r 0 [v])⟩ := by
  unfold Sheet.setColCells
  simp only [mapIdxRows]
  rw [if_neg (by omega)]
  rw [mapIdxRows_backfill v rows.length rows (0 + 1) (by omega) (by omega)]

/-- The state effect of `getSheet` on a legacy 6-column table: the first
column is inserted, the required header written, and every data row's new
first cell backfilled with "Timeline 1". -/
theorem getSheetRun_legacy (ds : List (List Cell)) :
    getSheetRun ⟨(OLD_HEADERS.map Cell.s) :: ds⟩
      = ⟨requiredCells :: ds.map (fun r => Cell.s "Timeline 1" :: r)⟩ := by
  have hcell : ∀ i, Sheet.getCell ⟨(OLD_HEADERS.map Cell.s) :: ds⟩ 0 i
      = (OLD_HEADERS.map Cell.s).getD i (Cell.s "") := fun i => rfl
  unfold getSheetRun
  rw [if_neg (by simp [Sheet.lastRow])]
  simp only [hcell]
  rw [if_pos (by decide)]
  have h1 : Sheet.insertColBefore ⟨(OLD_HEADERS.map Cell.s) :: ds⟩
      = ⟨(Cell.s "" :: OLD_HEADERS.map Cell.s) :: ds.map (fun r => Cell.s "" :: r)⟩ := by
    simp [Sheet.insertColBefore]
  rw [h1]
  have h2 : Sheet.writeCells
      ⟨(Cell.s "" :: OLD_HEADERS.map Cell.s) :: ds.map (fun r => Cell.s "" :: r)⟩
      0 0 requiredCells
      = ⟨requiredCells :: ds.map (fun r => Cell.s "" :: r)⟩ := by
    unfold Sheet.writeCells
    rw [if_neg (by simp)]
    have h3 : setRowCells (Cell.s "" :: OLD_HEADERS.map Cell.s) 0 requiredCells
        = requiredCells := by decide
    simp [h3]
  rw [h2]
  cases ds with
  | nil => simp [Sheet.lastRow]
  | cons d ds =>
    rw [if_pos (by simp [Sheet.lastRow])]
    have hlen : (Sheet.mk (requiredCells :: (d :: ds).map (fun r => Cell.s "" :: r))).lastRow - 1
        = ((d :: ds).map (fun r => Cell.s "" :: r)).length := by
      simp [Sheet.lastRow]
    rw [hlen, setColCells_all]
    simp only [List.map_map]
    have hmap : ∀ r : List Cell,
        (setRowCells · 0 [Cell.s "Timeline 1"]) ((fun r => Cell.s "" :: r) r)
          = Cell.s "Timeline 1" :: r := fun r => setRowCells_cons _ _ r
    simp [Function.comp, setRowCells_cons]

/-- C1: on a table whose header row exactly matches the legacy 6-column
labels and whose N data rows are at most 6 cells wide, one call to
`ensureSchema` (`getSheet`) leaves a table with 7 columns, the required
header row, "Timeline 1" in the first cell of every one of the N data
rows, and still N data rows. -/
theorem migration_spec (ds : List (List Cell)) (hw : ∀ r ∈ ds, r.length ≤ 6) :
    (getSheetRun ⟨(OLD_HEADERS.map Cell.s) :: ds⟩).lastCol = 7 ∧
    (getSheetRun ⟨(OLD_HEADERS.map Cell.s) :: ds⟩).rows.head? = some requiredCells ∧
    (∀ r ∈ (getSheetRun ⟨(OLD_HEADERS.map Cell.s) :: ds⟩).rows.tail,
      dget r 0 = Cell.s "Timeline 1") ∧
    ((getSheetRun ⟨(OLD_HEADERS.map Cell.s) :: ds⟩).rows.tail).length = ds.length := by
  rw [getSheetRun_legacy ds]
  refine ⟨?_, rfl, ?_, by simp⟩
  · unfold Sheet.lastCol
    simp only [List.foldr_cons]
    have hle : (ds.map (fun r => Cell.s "Timeline 1" :: r)).foldr
        (fun q m => max q.length m) 0 ≤ 7 := by
      apply foldr_max_le
      intro r hr
      rcases List.mem_map.mp hr with ⟨q, hq, rfl⟩
      simpa using Nat.succ_le_succ (hw q hq)
    have h7 : requiredCells.length = 7 := by decide
    omega
  · intro r hr
    simp only [List.tail_cons] at hr
    rcases List.mem_map.mp hr with ⟨q, hq, rfl⟩
    rfl

/-! ### Delete -/

theorem findIdx_split {α : Type} (p : α → Bool) (pre : List α) (m : α)
    (post : List α) (hpre : ∀ r ∈ pre, p r = false) (hm : p m = true) :
    (pre ++ m :: post).findIdx? p = some pre.length := by
  induction pre with
  | nil => simp [hm]
  | cons a pre ih =>
    have ha : p a = false := hpre a (by simp)
    simp only [List.cons_append, List.findIdx?_cons, ha, Bool.false_eq_true,
      if_false, List.findIdx?_start_succ]
    rw [ih (fun r hr => hpre r (by simp [hr]))]
    simp

/-- C6: on a non-empty current-schema table, when the composite key
matches two or more data rows, `deleteEvent` removes exactly the first
(topmost) matching row — the remaining rows shift up by one
(`List.eraseIdx`) and the row count drops by exactly one — and when no
data row matches it returns `success:false` with "Event not found." and
leaves the table unchanged. -/
theorem deleteEvent_spec (k : Key) (ds : List (List Cell)) (hne : ds ≠ []) :
    (∀ dpre dm dpost,
      dataRowsOf ⟨requiredCells :: ds⟩ = dpre ++ dm :: dpost →
      (∀ r ∈ dpre, rowMatches k r = false) → rowMatches k dm = true →
      (∃ r ∈ dpost, rowMatches k r = true) →
      deleteEvent (some k) ⟨requiredCells :: ds⟩
        = (⟨true, "Event deleted."⟩,
           ⟨(requiredCells :: ds).eraseIdx (dpre.length + 1)⟩) ∧
      ((requiredCells :: ds).eraseIdx (dpre.length + 1)).length = ds.length) ∧
    ((∀ r ∈ dataRowsOf ⟨requiredCells :: ds⟩, rowMatches k r = false) →
      deleteEvent (some k) ⟨requiredCells :: ds⟩
        = (⟨false, "Event not found."⟩, ⟨requiredCells :: ds⟩)) := by
  have hnot2 : ¬ (Sheet.mk (requiredCells :: ds)).lastRow < 2 := by
    have := List.length_pos.mpr hne
    simp only [Sheet.lastRow, List.length_cons]
    omega
  have hdata_len : (dataRowsOf ⟨requiredCells :: ds⟩).length = ds.length := by
    simp [dataRowsOf, Sheet.lastRow]
  constructor
  · intro dpre dm dpost hsplit hpre hm hpost
    have hfind : (dataRowsOf ⟨requiredCells :: ds⟩).findIdx? (rowMatches k)
        = some dpre.length := by
      rw [hsplit]; exact findIdx_split _ _ _ _ hpre hm
    have hlt : dpre.length < ds.length := by
      rw [hsplit] at hdata_len
      simp only [List.length_append, List.length_cons] at hdata_len
      omega
    simp only [deleteEvent, getSheetRun_req_cons]
    rw [if_neg hnot2, hfind]
    refine ⟨rfl, ?_⟩
    rw [List.length_eraseIdx_of_lt (by simp only [List.length_cons]; omega)]
    simp
  · intro hnone
    have hfind : (dataRowsOf ⟨requiredCells :: ds⟩).findIdx? (rowMatches k)
        = none := List.findIdx?_eq_none_iff.mpr hnone
    simp only [deleteEvent, getSheetRun_req_cons]
    rw [if_neg hnot2, hfind]

theorem deleteEvent_spec_witness :
    deleteEvent (some ⟨Cell.s "A", Cell.s "x", Cell.s "1", Cell.s "CE"⟩)
        ⟨requiredCells ::
          [[Cell.s "A", Cell.s "x", Cell.i 1, Cell.s "CE", Cell.i 1, Cell.s "X", Cell.s ""],
           [Cell.s "A", Cell.s "x", Cell.i 1, Cell.s "CE", Cell.i 1, Cell.s "X", Cell.s "2"]]⟩
      = (⟨true, "Event deleted."⟩,
         ⟨(requiredCells ::
          [[Cell.s "A", Cell.s "x", Cell.i 1, Cell.s "CE", Cell.i 1, Cell.s "X", Cell.s ""],
           [Cell.s "A", Cell.s "x", Cell.i 1, Cell.s "CE", Cell.i 1, Cell.s "X", Cell.s "2"]]).eraseIdx
            (List.length ([] : List (List Cell)) + 1)⟩) ∧
    ((requiredCells ::
       [[Cell.s "A", Cell.s "x", Cell.i 1, Cell.s "CE", Cell.i 1, Cell.s "X", Cell.s ""],
        [Cell.s "A", Cell.s "x", Cell.i 1, Cell.s "CE", Cell.i 1, Cell.s "X", Cell.s "2"]]).eraseIdx
         (List.length ([] : List (List Cell)) + 1)).length = 2 :=
  (deleteEvent_spec ⟨Cell.s "A", Cell.s "x", Cell.s "1", Cell.s "CE"⟩ _
      (by decide)).1
    [] [Cell.s "A", Cell.s "x", Cell.i 1, Cell.s "CE", Cell.i 1, Cell.s "X", Cell.s ""]
    [[Cell.s "A", Cell.s "x", Cell.i 1, Cell.s "CE", Cell.i 1, Cell.s "X", Cell.s "2"]]
    (by decide) (by decide) (by decide)
    ⟨[Cell.s "A", Cell.s "x", Cell.i 1, Cell.s "CE", Cell.i 1, Cell.s "X", Cell.s "2"],
     by decide, by decide⟩

/-! ### Update -/

theorem jsOrC_s_empty (v : String) : jsOrC (Cell.s v) (Cell.s "") = Cell.s v := by
  by_cases h : v = "" <;> simp [jsOrC, Cell.truthy, h]

theorem getD_split {α : Type} (dpre : List α) (dm : α) (dpost : List α) (d : α) :
    (dpre ++ dm :: dpost).getD dpre.length d = dm := by
  simp [List.getD_eq_getElem?_getD, List.getElem?_append_right (Nat.le_refl dpre.length)]

theorem dataRowsOf_getD (hd : List Cell) (ds : List (List Cell)) (m : Nat)
    (h : m < ds.length) :
    (dataRowsOf ⟨hd :: ds⟩).getD m []
      = (List.range 7).map (fun c => Sheet.getCell ⟨hd :: ds⟩ (m + 1) c) := by
  unfold dataRowsOf
  have h7 : REQUIRED_HEADERS.length = 7 := by decide
  simp [Sheet.lastRow, h7, List.getD_eq_getElem?_getD, List.getElem?_map,
    List.getElem?_range, h]

theorem dget_range7 (f : Nat → Cell) (c : Nat) (h : c < 7) :
    dget ((List.range 7).map f) c = f c := by
  simp [dget, List.getD_eq_getElem?_getD, List.getElem?_map, List.getElem?_range, h]

/-- C10: in `updateEvent`, empty-string new name, era and timelineName are
treated exactly as absent ones (`||` fallback), but an empty-string new
year is not: it is parsed, fails, and the call returns `success:false`
with "Year must be a number." leaving the table unchanged, whereas an
absent (`null`/`undefined`) year falls back to the matched row's stored
year. -/
theorem updateEvent_empty_string_fields :
    (∀ (inp : UpdateInput) (s : Sheet),
      updateEvent (some { inp with timelineName := some (Cell.s ""),
                                   name := some (Cell.s ""),
                                   era := some (Cell.s "") }) s
        = updateEvent (some { inp with timelineName := none,
                                       name := none,
                                       era := none }) s) ∧
    (∀ (o : Key) (ds dpre dpost : List (List Cell)) (dm : List Cell),
      dataRowsOf ⟨requiredCells :: ds⟩ = dpre ++ dm :: dpost →
      (∀ r ∈ dpre, rowMatches o r = false) → rowMatches o dm = true →
      updateEvent (some { original := some o, year := some (Cell.s "") })
          ⟨requiredCells :: ds⟩
        = (⟨false, "Year must be a number."⟩, ⟨requiredCells :: ds⟩)) ∧
    (∀ (o : Key) (ds dpre dpost : List (List Cell)) (dm : List Cell) (n : Int),
      dataRowsOf ⟨requiredCells :: ds⟩ = dpre ++ dm :: dpost →
      (∀ r ∈ dpre, rowMatches o r = false) → rowMatches o dm = true →
      parseIntJS (jsStr (dget dm 2)) = some n →
      (updateEvent (some { original := some o }) ⟨requiredCells :: ds⟩).1.success
        = true) := by
  refine ⟨?_, ?_, ?_⟩
  · intro inp s
    obtain ⟨orig, tl, nm, yr, er, de⟩ := inp
    cases orig with
    | none => rfl
    | some o =>
      simp only [updateEvent]
      have h1 : ∀ b, jsOrO (some (Cell.s "")) b = b := fun _ => rfl
      have h2 : ∀ b, jsOrO none b = b := fun _ => rfl
      simp only [h1, h2]
  · intro o ds dpre dpost dm hsplit hpre hm
    have hlen : (dataRowsOf ⟨requiredCells :: ds⟩).length = ds.length := by
      simp [dataRowsOf, Sheet.lastRow]
    have hm_lt : dpre.length < ds.length := by
      rw [hsplit] at hlen
      simp only [List.length_append, List.length_cons] at hlen
      omega
    have hnot2 : ¬ (Sheet.mk (requiredCells :: ds)).lastRow < 2 := by
      simp only [Sheet.lastRow, List.length_cons]
      omega
    have hfind : (dataRowsOf ⟨requiredCells :: ds⟩).findIdx? (rowMatches o)
        = some dpre.length := by
      rw [hsplit]; exact findIdx_split _ _ _ _ hpre hm
    simp only [updateEvent, getSheetRun_req_cons]
    rw [if_neg hnot2, hfind]
    rfl
  · intro o ds dpre dpost dm n hsplit hpre hm hyear
    have hlen : (dataRowsOf ⟨requiredCells :: ds⟩).length = ds.length := by
      simp [dataRowsOf, Sheet.lastRow]
    have hm_lt : dpre.length < ds.length := by
      rw [hsplit] at hlen
      simp only [List.length_append, List.length_cons] at hlen
      omega
    have hnot2 : ¬ (Sheet.mk (requiredCells :: ds)).lastRow < 2 := by
      simp only [Sheet.lastRow, List.length_cons]
      omega
    have hfind : (dataRowsOf ⟨requiredCells :: ds⟩).findIdx? (rowMatches o)
        = some dpre.length := by
      rw [hsplit]; exact findIdx_split _ _ _ _ hpre hm
    have hmrow : (dataRowsOf ⟨requiredCells :: ds⟩).getD dpre.length [] = dm := by
      rw [hsplit]; exact getD_split _ _ _ _
    simp only [updateEvent, getSheetRun_req_cons]
    rw [if_neg hnot2, hfind]
    simp only [hmrow, Option.getD_none, hyear]

/-- C5, counterexample to the claim as stated: on a matched row whose
stored abbreviation is stale ("ZZ" for name "First temple") and whose era
cell is blank, an update carrying only a new year succeeds but also
rewrites the abbreviation cell (to "FT") and the era cell (to "CE"), so it
does not change only the year and numericYear cells, and does not leave
the era cell unchanged. -/
theorem updateEvent_only_year_cex :
    updateEvent (some { original := some ⟨Cell.s "T1", Cell.s "First temple",
                                          Cell.s "5", Cell.s ""⟩,
                        year := some (Cell.s "10") })
        ⟨[requiredCells,
          [Cell.s "T1", Cell.s "First temple", Cell.i 5, Cell.s "", Cell.i 5,
           Cell.s "ZZ", Cell.s "d"]]⟩
      = (⟨true, "Event updated successfully."⟩,
         ⟨[requiredCells,
           [Cell.s "T1", Cell.s "First temple", Cell.i 10, Cell.s "CE", Cell.i 10,
            Cell.s "FT", Cell.s "d"]]⟩) ∧
    (Cell.s "FT" : Cell) ≠ Cell.s "ZZ" ∧ (Cell.s "CE" : Cell) ≠ Cell.s "" := by
  exact ⟨by decide, by decide, by decide⟩

theorem drop_padRow (tsr : List Cell) (k : Nat) :
    (padRow tsr k).drop k = tsr.drop k := by
  unfold padRow
  by_cases h : tsr.length ≤ k
  · have h1 : (tsr ++ List.replicate (k - tsr.length) (Cell.s "")).length ≤ k := by
      simp
      omega
    rw [List.drop_eq_nil_of_le h1, List.drop_eq_nil_of_le h]
  · have h0 : k - tsr.length = 0 := by omega
    simp [h0]

theorem setRowCells_zero (row vals : List Cell) :
    setRowCells row 0 vals = vals ++ row.drop vals.length := by
  unfold setRowCells
  simp [drop_padRow]

/-- C5 (amended): on a current-schema table, for the first data row
matching the original key, if that row is well-formed — truthy
timelineName, text name, truthy text era, abbreviation consistent with its
name, text description — then `updateEvent` with only a new (parseable)
year returns `success:true`, leaves the row at its position and the row
count unchanged, sets the year and numericYear cells, and changes no other
cell of the table. -/
theorem updateEvent_only_year_frame
    (o : Key) (y : Cell) (ds dpre dpost : List (List Cell)) (dm : List Cell)
    (nm er de : String) (n : Int)
    (hsplit : dataRowsOf ⟨requiredCells :: ds⟩ = dpre ++ dm :: dpost)
    (hpre : ∀ r ∈ dpre, rowMatches o r = false)
    (hm : rowMatches o dm = true)
    (h0 : (dget dm 0).truthy = true)
    (h1 : dget dm 1 = Cell.s nm)
    (h3 : dget dm 3 = Cell.s er) (her : er ≠ "")
    (h5 : dget dm 5 = Cell.s (makeAbbreviation (Cell.s nm)))
    (h6 : dget dm 6 = Cell.s de)
    (hyr : parseIntJS (jsStr y) = some n) :
    (updateEvent (some { original := some o, year := some y })
        ⟨requiredCells :: ds⟩).1
      = ⟨true, "Event updated successfully."⟩ ∧
    (updateEvent (some { original := some o, year := some y })
        ⟨requiredCells :: ds⟩).2.lastRow
      = (Sheet.mk (requiredCells :: ds)).lastRow ∧
    (updateEvent (some { original := some o, year := some y })
        ⟨requiredCells :: ds⟩).2.getCell (dpre.length + 1) 2 = Cell.i n ∧
    (updateEvent (some { original := some o, year := some y })
        ⟨requiredCells :: ds⟩).2.getCell (dpre.length + 1) 4
      = Cell.i (computeNumericYear (Cell.i n) (Cell.s er)) ∧
    (∀ r c, ¬(r = dpre.length + 1 ∧ (c = 2 ∨ c = 4)) →
      (updateEvent (some { original := some o, year := some y })
          ⟨requiredCells :: ds⟩).2.getCell r c
        = (Sheet.mk (requiredCells :: ds)).getCell r c) := by
  have hlen : (dataRowsOf ⟨requiredCells :: ds⟩).length = ds.length := by
    simp [dataRowsOf, Sheet.lastRow]
  have hm_lt : dpre.length < ds.length := by
    rw [hsplit] at hlen
    simp only [List.length_append, List.length_cons] at hlen
    omega
  have hnot2 : ¬ (Sheet.mk (requiredCells :: ds)).lastRow < 2 := by
    simp only [Sheet.lastRow, List.length_cons]
    omega
  have hfind : (dataRowsOf ⟨requiredCells :: ds⟩).findIdx? (rowMatches o)
      = some dpre.length := by
    rw [hsplit]; exact findIdx_split _ _ _ _ hpre hm
  have hmrow : (dataRowsOf ⟨requiredCells :: ds⟩).getD dpre.length [] = dm := by
    rw [hsplit]; exact getD_split _ _ _ _
  have hcells : ∀ c, c < 7 →
      dget dm c = Sheet.getCell ⟨requiredCells :: ds⟩ (dpre.length + 1) c := by
    intro c hc
    have hdm : dm = (List.range 7).map
        (fun c => Sheet.getCell ⟨requiredCells :: ds⟩ (dpre.length + 1) c) := by
      rw [← hmrow]
      exact dataRowsOf_getD requiredCells ds dpre.length hm_lt
    rw [hdm, dget_range7 _ _ hc]
  have her2 : (Cell.s er).truthy = true := by simp [Cell.truthy, her]
  have hjs : ∀ v : String, jsStr (Cell.s v) = v := fun _ => rfl
  have ha : jsOrC (dget dm 0) (Cell.s "Timeline 1") = dget dm 0 := by
    simp [jsOrC, h0]
  have hb : jsOrC (dget dm 1) (Cell.s "") = Cell.s nm := by
    rw [h1]; exact jsOrC_s_empty nm
  have hce : jsOrC (dget dm 3) (Cell.s "CE") = Cell.s er := by
    rw [h3]; simp [jsOrC, her2]
  have hu : updateEvent (some { original := some o, year := some y })
      ⟨requiredCells :: ds⟩
      = (⟨true, "Event updated successfully."⟩,
         Sheet.writeCells ⟨requiredCells :: ds⟩ (dpre.length + 1) 0
           [dget dm 0, Cell.s nm, Cell.i n, Cell.s er,
            Cell.i (computeNumericYear (Cell.i n) (Cell.s er)),
            Cell.s (makeAbbreviation (Cell.s nm)), Cell.s de]) := by
    simp only [updateEvent, getSheetRun_req_cons]
    rw [if_neg hnot2, hfind]
    simp only [hmrow, Option.getD_some, Option.getD_none, jsOrO, ha, hb, hce,
      hjs, h6, hyr]
  rw [hu]
  have hle : ¬ (requiredCells :: ds).length ≤ dpre.length + 1 := by
    simp only [List.length_cons]; omega
  have hidx : dpre.length + 1 < (requiredCells :: ds).length := by
    simp only [List.length_cons]; omega
  have hW : (Sheet.writeCells ⟨requiredCells :: ds⟩ (dpre.length + 1) 0
      [dget dm 0, Cell.s nm, Cell.i n, Cell.s er,
       Cell.i (computeNumericYear (Cell.i n) (Cell.s er)),
       Cell.s (makeAbbreviation (Cell.s nm)), Cell.s de]).rows
      = (requiredCells :: ds).set (dpre.length + 1)
          ([dget dm 0, Cell.s nm, Cell.i n, Cell.s er,
            Cell.i (computeNumericYear (Cell.i n) (Cell.s er)),
            Cell.s (makeAbbreviation (Cell.s nm)), Cell.s de]
           ++ ((requiredCells :: ds).getD (dpre.length + 1) []).drop
                ([dget dm 0, Cell.s nm, Cell.i n, Cell.s er,
                  Cell.i (computeNumericYear (Cell.i n) (Cell.s er)),
                  Cell.s (makeAbbreviation (Cell.s nm)), Cell.s de] : List Cell).length) := by
    simp only [Sheet.writeCells]
    rw [if_neg hle, setRowCells_zero]
  have hrowW : ((Sheet.writeCells ⟨requiredCells :: ds⟩ (dpre.length + 1) 0
      [dget dm 0, Cell.s nm, Cell.i n, Cell.s er,
       Cell.i (computeNumericYear (Cell.i n) (Cell.s er)),
       Cell.s (makeAbbreviation (Cell.s nm)), Cell.s de]).rows).getD
        (dpre.length + 1) []
      = [dget dm 0, Cell.s nm, Cell.i n, Cell.s er,
         Cell.i (computeNumericYear (Cell.i n) (Cell.s er)),
         Cell.s (makeAbbreviation (Cell.s nm)), Cell.s de]
        ++ ((requiredCells :: ds).getD (dpre.length + 1) []).drop
             ([dget dm 0, Cell.s nm, Cell.i n, Cell.s er,
               Cell.i (computeNumericYear (Cell.i n) (Cell.s er)),
               Cell.s (makeAbbreviation (Cell.s nm)), Cell.s de] : List Cell).length := by
    rw [hW, List.getD_eq_getElem?_getD, List.getElem?_set_self hidx,
      Option.getD_some]
  refine ⟨rfl, ?_, ?_, ?_, ?_⟩
  · simp only [Sheet.lastRow, hW, List.length_set]
  · show ((Sheet.writeCells _ _ _ _).rows.getD (dpre.length + 1) []).getD 2
        (Cell.s "") = _
    rw [hrowW]; rfl
  · show ((Sheet.writeCells _ _ _ _).rows.getD (dpre.length + 1) []).getD 4
        (Cell.s "") = _
    rw [hrowW]; rfl
  · intro r c hrc
    by_cases hr : r = dpre.length + 1
    · subst hr
      have hc2 : c ≠ 2 := fun h => hrc ⟨rfl, Or.inl h⟩
      have hc4 : c ≠ 4 := fun h => hrc ⟨rfl, Or.inr h⟩
      show ((Sheet.writeCells _ _ _ _).rows.getD (dpre.length + 1) []).getD c
          (Cell.s "") = _
      rw [hrowW]
      by_cases hc7 : c < 7
      · interval_cases c
        · simp only [List.cons_append, List.getD_cons_zero]
          rw [← hcells 0 (by omega)]
        · simp only [List.cons_append, List.getD_cons_succ, List.getD_cons_zero]
          rw [← hcells 1 (by omega), h1]
        · exact absurd rfl hc2
        · simp only [List.cons_append, List.getD_cons_succ, List.getD_cons_zero]
          rw [← hcells 3 (by omega), h3]
        · exact absurd rfl hc4
        · simp only [List.cons_append, List.getD_cons_succ, List.getD_cons_zero]
          rw [← hcells 5 (by omega), h5]
        · simp only [List.cons_append, List.getD_cons_succ, List.getD_cons_zero]
          rw [← hcells 6 (by omega), h6]
      · have hlc : ([dget dm 0, Cell.s nm, Cell.i n, Cell.s er,
            Cell.i (computeNumericYear (Cell.i n) (Cell.s er)),
            Cell.s (makeAbbreviation (Cell.s nm)), Cell.s de] : List Cell).length ≤ c := by
          simp only [List.length_cons, List.length_nil]
          omega
        rw [List.getD_eq_getElem?_getD, List.getElem?_append_right hlc,
          List.getElem?_drop, Nat.add_sub_cancel' hlc]
        show _ = ((requiredCells :: ds).getD (dpre.length + 1) []).getD c (Cell.s "")
        simp [List.getD_eq_getElem?_getD]
    · have hset_ne : ∀ (X : List (List Cell)) (i : Nat) (v : List Cell) (r : Nat),
          i ≠ r → (X.set i v).getD r [] = X.getD r [] := by
        intro X i v r h
        simp [List.getD_eq_getElem?_getD, List.getElem?_set_ne h]
      show ((Sheet.writeCells _ _ _ _).rows.getD r []).getD c (Cell.s "") = _
      rw [hW, hset_ne _ _ _ _ (fun h => hr h.symm)]
      rfl

theorem updateEvent_only_year_frame_witness :
    (updateEvent (some { original := some ⟨Cell.s "T1", Cell.s "X", Cell.s "5",
                                           Cell.s "CE"⟩,
                         year := some (Cell.s "10") })
        ⟨requiredCells ::
          [[Cell.s "T1", Cell.s "X", Cell.i 5, Cell.s "CE", Cell.i 5, Cell.s "X",
            Cell.s "d"]]⟩).1
      = ⟨true, "Event updated successfully."⟩ ∧
    (updateEvent (some { original := some ⟨Cell.s "T1", Cell.s "X", Cell.s "5",
                                           Cell.s "CE"⟩,
                         year := some (Cell.s "10") })
        ⟨requiredCells ::
          [[Cell.s "T1", Cell.s "X", Cell.i 5, Cell.s "CE", Cell.i 5, Cell.s "X",
            Cell.s "d"]]⟩).2.getCell 1 5
      = (Sheet.mk (requiredCells ::
          [[Cell.s "T1", Cell.s "X", Cell.i 5, Cell.s "CE", Cell.i 5, Cell.s "X",
            Cell.s "d"]])).getCell 1 5 := by
  have h := updateEvent_only_year_frame
    ⟨Cell.s "T1", Cell.s "X", Cell.s "5", Cell.s "CE"⟩ (Cell.s "10")
    [[Cell.s "T1", Cell.s "X", Cell.i 5, Cell.s "CE", Cell.i 5, Cell.s "X",
      Cell.s "d"]]
    [] []
    [Cell.s "T1", Cell.s "X", Cell.i 5, Cell.s "CE", Cell.i 5, Cell.s "X",
     Cell.s "d"]
    "X" "CE" "d" 10
    (by decide) (by decide) (by decide) (by decide) (by decide) (by decide)
    (by decide) (by decide) (by decide) (by decide)
  exact ⟨h.1, h.2.2.2.2 1 5 (by decide)⟩

theorem updateEvent_empty_string_fields_witness :
    updateEvent (some { original := some ⟨Cell.s "T1", Cell.s "X", Cell.s "5", Cell.s "CE"⟩,
                        year := some (Cell.s "") })
        ⟨requiredCells ::
          [[Cell.s "T1", Cell.s "X", Cell.i 5, Cell.s "CE", Cell.i 5, Cell.s "X", Cell.s "d"]]⟩
      = (⟨false, "Year must be a number."⟩,
         ⟨requiredCells ::
          [[Cell.s "T1", Cell.s "X", Cell.i 5, Cell.s "CE", Cell.i 5, Cell.s "X", Cell.s "d"]]⟩) :=
  (updateEvent_empty_string_fields).2.1
    ⟨Cell.s "T1", Cell.s "X", Cell.s "5", Cell.s "CE"⟩ _
    [] [] [Cell.s "T1", Cell.s "X", Cell.i 5, Cell.s "CE", Cell.i 5, Cell.s "X", Cell.s "d"]
    (by decide) (by decide) (by decide)

/-! ### The grouped query -/

theorem length_mapIdxRows (f : Nat → List Cell → List Cell) :
    ∀ (j : Nat) (rs : List (List Cell)), (mapIdxRows f j rs).length = rs.length := by
  intro j rs
  induction rs generalizing j with
  | nil => rfl
  | cons r rs ih => simp [mapIdxRows, ih]

theorem writeCells_zero_length (s : Sheet) (vals : List Cell) (h : s.rows ≠ []) :
    (s.writeCells 0 0 vals).rows.length = s.rows.length := by
  simp only [Sheet.writeCells]
  rw [if_neg (fun hc => h (List.length_eq_zero.mp (Nat.le_zero.mp hc)))]
  simp

/-- `getSheet` never changes the number of data rows. -/
theorem getSheetRun_lastRow_sub (s : Sheet) :
    (getSheetRun s).lastRow - 1 = s.lastRow - 1 := by
  unfold getSheetRun
  by_cases h0 : s.lastRow = 0
  · rw [if_pos h0]
    have hr : s.rows = [] := List.length_eq_zero.mp h0
    simp [Sheet.writeCells, Sheet.lastRow, hr]
  · rw [if_neg h0]
    have hne : s.rows ≠ [] := fun hc => h0 (by simp [Sheet.lastRow, hc])
    by_cases hold : (((List.range REQUIRED_HEADERS.length).map
        (fun i => normalizeHeader (s.getCell 0 i))).take 6 = OLD_HEADERS)
    · rw [if_pos hold]
      have hne1 : (s.insertColBefore).rows ≠ [] := by
        simpa [Sheet.insertColBefore] using hne
      have h1 : (s.insertColBefore).rows.length = s.rows.length := by
        simp [Sheet.insertColBefore]
      have h2 := writeCells_zero_length s.insertColBefore requiredCells hne1
      by_cases hdr : 0 < ((s.insertColBefore.writeCells 0 0 requiredCells).lastRow - 1)
      · rw [if_pos hdr]
        simp [Sheet.setColCells, Sheet.lastRow, length_mapIdxRows, h2, h1]
      · rw [if_neg hdr]
        simp [Sheet.lastRow, h2, h1]
    · rw [if_neg hold]
      by_cases hnr : ((List.zip REQUIRED_HEADERS ((List.range REQUIRED_HEADERS.length).map
          (fun i => normalizeHeader (s.getCell 0 i)))).any (fun p => p.1 ≠ p.2) ∨
          s.lastCol < REQUIRED_HEADERS.length)
      · rw [if_pos hnr]
        simp [Sheet.lastRow, writeCells_zero_length s requiredCells hne]
      · rw [if_neg hnr]

theorem groupNames_nodup (evs : List Event) : (groupNames evs).Nodup := by
  suffices h : ∀ (acc : List String), acc.Nodup →
      (evs.foldl
        (fun acc e =>
          if e.timelineName ∈ acc then acc else acc ++ [e.timelineName])
        acc).Nodup by
    exact h [] List.nodup_nil
  induction evs with
  | nil => intro acc hacc; exact hacc
  | cons e evs ih =>
    intro acc hacc
    simp only [List.foldl_cons]
    by_cases hm : e.timelineName ∈ acc
    · rw [if_pos hm]; exact ih acc hacc
    · rw [if_neg hm]
      apply ih
      simp [List.nodup_append, hacc, hm]

/-- The group-key sort: distinct names, sorted strictly ascending. -/
theorem sortedNames_strict (evs : List Event) :
    ((groupNames evs).mergeSort (fun a b => a ≤ b)).Pairwise (fun a b => a < b) := by
  have htrans : ∀ (a b c : String),
      decide (a ≤ b) = true → decide (b ≤ c) = true → decide (a ≤ c) = true := by
    intro a b c hab hbc
    simp only [decide_eq_true_eq] at hab hbc ⊢
    exact le_trans hab hbc
  have htotal : ∀ (a b : String), (decide (a ≤ b) || decide (b ≤ a)) = true := by
    intro a b
    simp only [Bool.or_eq_true, decide_eq_true_eq]
    exact le_total a b
  have hpair := List.sorted_mergeSort htrans htotal (groupNames evs)
  have hnodup : ((groupNames evs).mergeSort (fun a b => a ≤ b)).Nodup :=
    (List.mergeSort_perm _ _).nodup_iff.mpr (groupNames_nodup evs)
  exact (hpair.and hnodup).imp
    (fun h => lt_of_le_of_ne (by simpa using h.1) h.2)

/-- The chronological sort of one group: a stable ascending sort by
`evKey`. -/
theorem stable_sort_events (l : List Event) :
    (l.mergeSort (fun a b => evKey a ≤ evKey b)).Perm l ∧
    List.Sorted (fun a b => a ≤ b)
      ((l.mergeSort (fun a b => evKey a ≤ evKey b)).map evKey) ∧
    (∀ m : Int,
      (l.mergeSort (fun a b => evKey a ≤ evKey b)).filter (fun e => evKey e = m)
        = l.filter (fun e => evKey e = m)) := by
  have htrans : ∀ (a b c : Event),
      decide (evKey a ≤ evKey b) = true → decide (evKey b ≤ evKey c) = true →
      decide (evKey a ≤ evKey c) = true := by
    intro a b c hab hbc
    simp only [decide_eq_true_eq] at hab hbc ⊢
    omega
  have htotal : ∀ (a b : Event),
      (decide (evKey a ≤ evKey b) || decide (evKey b ≤ evKey a)) = true := by
    intro a b
    simp only [Bool.or_eq_true, decide_eq_true_eq]
    omega
  refine ⟨List.mergeSort_perm l _, ?_, ?_⟩
  · have hp := List.sorted_mergeSort htrans htotal l
    rw [List.Sorted, List.pairwise_map]
    exact hp.imp (fun h => by simpa using h)
  · intro m
    have hcpair : (l.filter (fun e => evKey e = m)).Pairwise
        (fun a b => decide (evKey a ≤ evKey b) = true) := by
      apply List.pairwise_of_forall_mem_list
      intro a ha b hb
      have ha2 := (List.mem_filter.mp ha).2
      have hb2 := (List.mem_filter.mp hb).2
      simp only [decide_eq_true_eq] at ha2 hb2 ⊢
      omega
    have hsub : List.Sublist (l.filter (fun e => evKey e = m)) l :=
      List.filter_sublist l
    have hsub2 := List.sublist_mergeSort htrans htotal hcpair hsub
    have hperm := (List.mergeSort_perm l
      (fun a b => evKey a ≤ evKey b)).filter (fun e => evKey e = m)
    have hsub3 := hsub2.filter (fun e => evKey e = m)
    have hself : (l.filter (fun e => evKey e = m)).filter (fun e => evKey e = m)
        = l.filter (fun e => evKey e = m) :=
      List.filter_eq_self.mpr (fun a ha => (List.mem_filter.mp ha).2)
    rw [hself] at hsub3
    exact (hsub3.eq_of_length hperm.length_eq.symm).symm

/-- C3: `getEventsGrouped` returns empty arrays on a table with zero data
rows; otherwise its timelines are ordered by group key sorted
lexicographically ascending with `timelineNames` mirroring that order, and
within each group the events are a stable ascending sort by the numeric
sort key of the decoded rows (in row order): a permutation of the group,
keys nondecreasing, and for every key value the events carrying it appear
exactly in original row order.  The hypothesis restricts to tables where
every sort key is a number: on a stored non-numeric NumericYear text the
JavaScript comparator returns NaN and the engine's sort order is
implementation-defined, so no order can be derived from the source
there. -/
theorem getEventsGrouped_spec (s : Sheet)
    (hkeys : ∀ row ∈ dataRowsOf (getSheetRun s),
      (jsNumberInt (sortVal (decodeRow row))).isSome = true) :
    (s.lastRow ≤ 1 → (getEventsGrouped s).1 = ⟨[], []⟩) ∧
    (getEventsGrouped s).1.timelineNames
      = (getEventsGrouped s).1.timelines.map (fun t => t.name) ∧
    (getEventsGrouped s).1.timelineNames.Pairwise (fun a b => a < b) ∧
    (∀ t ∈ (getEventsGrouped s).1.timelines,
      t.events.Perm
        (((dataRowsOf (getSheetRun s)).map decodeRow).filter
          (fun e => e.timelineName = t.name)) ∧
      List.Sorted (fun a b => a ≤ b) (t.events.map evKey) ∧
      (∀ m : Int,
        t.events.filter (fun e => evKey e = m)
          = (((dataRowsOf (getSheetRun s)).map decodeRow).filter
              (fun e => e.timelineName = t.name)).filter
              (fun e => evKey e = m))) := by
  by_cases hlt : (getSheetRun s).lastRow < 2
  · have hg : (getEventsGrouped s).1 = ⟨[], []⟩ := by
      simp [getEventsGrouped, hlt]
    refine ⟨fun _ => hg, ?_, ?_, ?_⟩
    · rw [hg]; rfl
    · rw [hg]; exact List.Pairwise.nil
    · rw [hg]; intro t ht; cases ht
  · have hempty : s.lastRow ≤ 1 → (getEventsGrouped s).1 = ⟨[], []⟩ := by
      intro hle
      exfalso
      apply hlt
      have hpres := getSheetRun_lastRow_sub s
      omega
    have hg : (getEventsGrouped s).1
        = ⟨((groupNames ((dataRowsOf (getSheetRun s)).map decodeRow)).mergeSort
              (fun a b => a ≤ b)).map
            (fun n =>
              ⟨n, (((dataRowsOf (getSheetRun s)).map decodeRow).filter
                    (fun e => e.timelineName = n)).mergeSort
                  (fun a b => evKey a ≤ evKey b)⟩),
           (((groupNames ((dataRowsOf (getSheetRun s)).map decodeRow)).mergeSort
              (fun a b => a ≤ b)).map
            (fun n =>
              (⟨n, (((dataRowsOf (getSheetRun s)).map decodeRow).filter
                    (fun e => e.timelineName = n)).mergeSort
                  (fun a b => evKey a ≤ evKey b)⟩ : Timeline))).map
            (fun t => t.name)⟩ := by
      simp [getEventsGrouped, hlt]
    refine ⟨hempty, ?_, ?_, ?_⟩
    · rw [hg]
    · rw [hg]
      show (List.map _ _).Pairwise _
      rw [List.map_map]
      have hcomp : ((fun t : Timeline => t.name) ∘
          (fun n =>
            (⟨n, (((dataRowsOf (getSheetRun s)).map decodeRow).filter
                  (fun e => e.timelineName = n)).mergeSort
                  (fun a b => evKey a ≤ evKey b)⟩ : Timeline))) = id := by
        funext n; rfl
      rw [hcomp, List.map_id]
      exact sortedNames_strict _
    · intro t ht
      rw [hg] at ht
      obtain ⟨n, hn, rfl⟩ := List.mem_map.mp ht
      exact stable_sort_events _

theorem getEventsGrouped_spec_witness :
    ((getEventsGrouped ⟨[requiredCells,
        [Cell.s "B", Cell.s "b1", Cell.i 5, Cell.s "CE", Cell.i 5, Cell.s "B", Cell.s ""],
        [Cell.s "A", Cell.s "a1", Cell.i 3, Cell.s "BC", Cell.i (-3), Cell.s "A", Cell.s ""],
        [Cell.s "A", Cell.s "a2", Cell.i 7, Cell.s "CE", Cell.s "", Cell.s "", Cell.s ""]]⟩).1.timelineNames).Pairwise
      (fun a b => a < b) :=
  (getEventsGrouped_spec _ (by decide)).2.2.1

/-! ### Error handling -/

/-- C9: the mutation entry points `addEvent`, `updateEvent`, `deleteEvent`
never propagate an exception — whatever the store does they return an
`ok` result — and when the store fails the result is
`{success:false, message}` with the underlying error text prefixed by
"Error adding event: " / "Error updating event: " / "Error deleting
event: " respectively; the reads `getEventsGrouped` and
`getTimelineNames` have no catch, so the same store failure propagates to
the caller unmodified. -/
theorem error_handling_spec :
    (∀ (σ : Type) (ops : StoreOps σ) (i : Option EventInput) (s : σ),
      ∃ out, addEventX ops i s = .ok out) ∧
    (∀ (σ : Type) (ops : StoreOps σ) (i : Option UpdateInput) (s : σ),
      ∃ out, updateEventX ops i s = .ok out) ∧
    (∀ (σ : Type) (ops : StoreOps σ) (i : Option Key) (s : σ),
      ∃ out, deleteEventX ops i s = .ok out) ∧
    (∀ (σ : Type) (e : String) (s : σ),
      getEventsGroupedX (failOps e) s = .error e ∧
      getTimelineNamesX (failOps e) s = .error e ∧
      addEventX (failOps e)
        (some { name := some (Cell.s "X"), year := some (Cell.s "1") }) s
        = .ok (⟨false, "Error adding event: " ++ e⟩, s) ∧
      updateEventX (failOps e)
        (some { original := some ⟨Cell.s "T", Cell.s "X", Cell.s "1", Cell.s "CE"⟩ }) s
        = .ok (⟨false, "Error updating event: " ++ e⟩, s) ∧
      deleteEventX (failOps e)
        (some ⟨Cell.s "T", Cell.s "X", Cell.s "1", Cell.s "CE"⟩) s
        = .ok (⟨false, "Error deleting event: " ++ e⟩, s)) := by
  refine ⟨?_, ?_, ?_, ?_⟩
  · intro σ ops i s
    unfold addEventX catching
    cases h : addEventBodyX ops i s with
    | ok r => exact ⟨r, rfl⟩
    | error e => exact ⟨(⟨false, "Error adding event: " ++ e⟩, s), rfl⟩
  · intro σ ops i s
    unfold updateEventX catching
    cases h : updateEventBodyX ops i s with
    | ok r => exact ⟨r, rfl⟩
    | error e => exact ⟨(⟨false, "Error updating event: " ++ e⟩, s), rfl⟩
  · intro σ ops i s
    unfold deleteEventX catching
    cases h : deleteEventBodyX ops i s with
    | ok r => exact ⟨r, rfl⟩
    | error e => exact ⟨(⟨false, "Error deleting event: " ++ e⟩, s), rfl⟩
  · intro σ e s
    exact ⟨rfl, rfl, rfl, rfl, rfl⟩

theorem migration_spec_witness :
    (∀ r ∈ [[Cell.s "E1", Cell.i 5, Cell.s "CE", Cell.i 5, Cell.s "E", Cell.s "d"]],
      r.length ≤ 6) ∧
    (getSheetRun ⟨(OLD_HEADERS.map Cell.s) ::
        [[Cell.s "E1", Cell.i 5, Cell.s "CE", Cell.i 5, Cell.s "E", Cell.s "d"]]⟩).lastCol
      = 7 := by
  refine ⟨by decide, ?_⟩
  exact (migration_spec _ (by decide)).1

end TimelineApp
